import Mathlib

/-!
Shallow embedding of `ddtrace/internal/core.py` (ExecutionContext tree and
EventHub) and `ddtrace/internal/datastreams/processor.py` (data-streams
processor), with theorems settling the spec claims about them.

Python objects live in an explicit heap (`Store`): contexts are addressed by
natural numbers, mutation is functional update of the heap.  Python dicts are
association lists with first-occurrence lookup and in-place overwrite.
Machine integers are `Nat`/`Int` with explicit `% 2^64` where the source
masks; Python floats (`time.time()` seconds) are modelled as `ℚ`; `int(x)`
truncation toward zero is `pyInt`.  Fallible code returns `Except`.
-/

namespace Core

/-- Values stored in a context's data map (`Any` in the source; strings
suffice for all claims about the lookup discipline). -/
abbrev Val := String

/-- ROOT_CONTEXT_ID from core.py line 29. -/
def ROOT_CONTEXT_ID : String := "__root"

/-- Python dict lookup: first matching key (dicts have unique keys, kept by
`dictSet`). Models `data_key in self._data` / `self._data.get(data_key)`. -/
def dictGet : List (String × Val) → String → Option Val
  | [], _ => none
  | (k1, v1) :: d, k => if k1 == k then some v1 else dictGet d k

/-- Python dict item assignment: overwrite in place if the key exists,
otherwise append. -/
def dictSet : List (String × Val) → String → Val → List (String × Val)
  | [], k, v => [(k, v)]
  | (k1, v1) :: d, k, v => if k1 == k then (k1, v) :: d else (k1, v1) :: dictSet d k v

/-- Python `dict.update`: assign every pair of `other` in order. -/
def dictUpdate (d other : List (String × Val)) : List (String × Val) :=
  other.foldl (fun acc p => dictSet acc p.1 p.2) d

/-- One `ExecutionContext` object: `identifier`, own `_data`, `_parents`
(context addresses, append-only). The `_event_hub`, `_span` and `_token`
slots play no role in the lookup/parent claims and are elided. -/
structure Ctx where
  identifier : String
  data : List (String × Val)
  parents : List Nat
deriving DecidableEq

/-- The heap of `ExecutionContext` objects: addresses `0, 1, ...` in creation
order; `size` is the next fresh address. -/
structure Store where
  size : Nat
  ctxs : Nat → Option Ctx

/-- Overwrite the object at address `i` (Python attribute mutation). -/
def Store.setCtx (s : Store) (i : Nat) (c : Ctx) : Store :=
  { s with ctxs := fun j => if j = i then some c else s.ctxs j }

/-- ExecutionContext.addParent (core.py lines 111-115): raise ValueError if
`self` is the root, else append the parent address to `_parents` and merge
the parent's entire data snapshot into `self._data`. -/
def addParent (s : Store) (selfId parentId : Nat) : Except String Store :=
  match s.ctxs selfId with
  | none => Except.error "no such context"
  | some c =>
    if c.identifier == ROOT_CONTEXT_ID then
      Except.error "Cannot add parent to root context"
    else
      match s.ctxs parentId with
      | none => Except.error "no such context"
      | some p =>
        Except.ok (s.setCtx selfId
          { c with parents := c.parents ++ [parentId], data := dictUpdate c.data p.data })

/-- Replay `self._data.update(kwargs)` on the context at `cid`. -/
def ctxUpdateData (s : Store) (cid : Nat) (kwargs : List (String × Val)) : Store :=
  match s.ctxs cid with
  | some c => s.setCtx cid { c with data := dictUpdate c.data kwargs }
  | none => s

/-- ExecutionContext.__init__ (core.py lines 72-82): allocate a context with
empty data and no parents, run `addParent` when a parent is given (a raise
there discards the freshly allocated object), then apply `kwargs`. Returns
the new address. -/
def newContext (s : Store) (identifier : String) (parent : Option Nat)
    (kwargs : List (String × Val)) : Except String (Store × Nat) :=
  let cid := s.size
  let s1 : Store :=
    { size := s.size + 1,
      ctxs := fun j => if j = cid then some ⟨identifier, [], []⟩ else s.ctxs j }
  match parent with
  | none => Except.ok (ctxUpdateData s1 cid kwargs, cid)
  | some p =>
    match addParent s1 cid p with
    | Except.error e => Except.error e
    | Except.ok s2 => Except.ok (ctxUpdateData s2 cid kwargs, cid)

/-- ExecutionContext.set_item (core.py lines 140-142): mutate only the own
data map of the target context. -/
def set_item (s : Store) (cid : Nat) (k : String) (v : Val) : Store :=
  match s.ctxs cid with
  | some c => s.setCtx cid { c with data := dictSet c.data k v }
  | none => s

/-- The loop of ExecutionContext.get_item (core.py lines 126-134): walk
`current = self` then `current = current.parent` (`_parents[0]`, or stop at
`None`), stopping at (and excluding the data of) a context whose identifier
is the root sentinel. `fuel` bounds the walk; the caller passes more fuel
than there are contexts, so it only cuts walks that Python would not
terminate either (cyclic parent chains). -/
def getItemAux (s : Store) (k : String) : Nat → Option Nat → Option Val
  | 0, _ => none
  | _, none => none
  | fuel + 1, some cid =>
    match s.ctxs cid with
    | none => none
    | some c =>
      if c.identifier == ROOT_CONTEXT_ID then none
      else
        match dictGet c.data k with
        | some v => some v
        | none => getItemAux s k fuel c.parents.head?

/-- ExecutionContext.get_item (core.py lines 126-134). -/
def get_item (s : Store) (cid : Nat) (k : String) : Option Val :=
  getItemAux s k (s.size + 1) (some cid)

/-- The operations a caller can run against the context tree; an operation
that raises leaves the heap unchanged. -/
inductive Op where
  | newCtx (identifier : String) (parent : Option Nat) (kwargs : List (String × Val))
  | addPar (selfId parentId : Nat)
  | setIt (cid : Nat) (k : String) (v : Val)

def step (s : Store) : Op → Store
  | Op.newCtx identifier p kw =>
    match newContext s identifier p kw with
    | Except.ok (s2, _) => s2
    | Except.error _ => s
  | Op.addPar a b =>
    match addParent s a b with
    | Except.ok s2 => s2
    | Except.error _ => s
  | Op.setIt c k v => set_item s c k v

def run (s : Store) (ops : List Op) : Store := ops.foldl step s

/-- The process-wide initial heap: just the root sentinel (core.py line 150
creates `ExecutionContext(ROOT_CONTEXT_ID)` as the contextvar default). -/
def initStore : Store :=
  { size := 1, ctxs := fun j => if j = 0 then some ⟨ROOT_CONTEXT_ID, [], []⟩ else none }

/-- Invariant claimed by the spec: a root-named context never has a parent. -/
def rootNoParents (s : Store) : Prop :=
  ∀ i c, s.ctxs i = some c → c.identifier = ROOT_CONTEXT_ID → c.parents = []

/-- Exceptions raised by listeners (opaque payload suffices). -/
abbrev Exn := String

/-- A listener callable: applied to the dispatch `args`, it either returns a
value or raises. -/
abbrev Listener := List Val → Except Exn Val

/-- EventHub._listeners as a subscription log: `EventHub.on` (core.py lines
41-44) appends under the dispatch lock, so the per-event listener list of the
`defaultdict(list)` is exactly the log filtered to that event, in
subscription order. -/
def listenersFor (subs : List (String × Listener)) (event_id : String) : List Listener :=
  (subs.filter (fun p => p.1 == event_id)).map (fun p => p.2)

/-- EventHub.on (the name `on` is reserved in Lean): thread-safe append of a
callback under `event_id`. -/
def hubOn (subs : List (String × Listener)) (event_id : String) (l : Listener) :
    List (String × Listener) :=
  subs ++ [(event_id, l)]

/-- One iteration of the dispatch loop body (core.py lines 58-65): start with
`result = None` and `exception = None`, run the listener, catch any raised
exception. -/
def listenerOutcome (args : List Val) (l : Listener) : Option Val × Option Exn :=
  match l args with
  | Except.ok v => (some v, none)
  | Except.error e => (none, some e)

/-- EventHub.dispatch (core.py lines 50-66): iterate the listeners registered
for `event_id` in order, collecting per-listener results and exceptions
positionally; a raise is captured, never propagated. -/
def dispatch (subs : List (String × Listener)) (event_id : String) (args : List Val) :
    List (Option Val) × List (Option Exn) :=
  let outs := (listenersFor subs event_id).map (listenerOutcome args)
  (outs.map (fun o => o.1), outs.map (fun o => o.2))

end Core

namespace DSM

/-- Python `int(x)` on a float: truncation toward zero. -/
def pyInt (q : ℚ) : ℤ := if 0 ≤ q then ⌊q⌋ else ⌈q⌉

/-- UTF-8 bytes of one code point, as `bytes(s, "utf-8")` produces them. -/
def utf8Char (c : Char) : List Nat :=
  let n := c.toNat
  if n < 0x80 then [n]
  else if n < 0x800 then [0xC0 + n / 0x40, 0x80 + n % 0x40]
  else if n < 0x10000 then [0xE0 + n / 0x1000, 0x80 + n / 0x40 % 0x40, 0x80 + n % 0x40]
  else [0xF0 + n / 0x40000, 0x80 + n / 0x1000 % 0x40, 0x80 + n / 0x40 % 0x40, 0x80 + n % 0x40]

/-- Python `bytes(s, "utf-8")`. -/
def utf8 (s : String) : List Nat := (s.data.map utf8Char).flatten

/-- Python `struct.pack("<Q", n)`: the 8 little-endian bytes of a 64-bit
unsigned integer. -/
def le8 (n : Nat) : List Nat :=
  [n % 256, n / 256 % 256, n / 256 ^ 2 % 256, n / 256 ^ 3 % 256,
   n / 256 ^ 4 % 256, n / 256 ^ 5 % 256, n / 256 ^ 6 % 256, n / 256 ^ 7 % 256]

/-- Python `struct.unpack("<Q", b)[0]` on 8 bytes given little-endian. -/
def unpackQ (b0 b1 b2 b3 b4 b5 b6 b7 : Nat) : Nat :=
  b0 % 256 + 256 * (b1 % 256) + 256 ^ 2 * (b2 % 256) + 256 ^ 3 * (b3 % 256) +
    256 ^ 4 * (b4 % 256) + 256 ^ 5 * (b5 % 256) + 256 ^ 6 * (b6 % 256) + 256 ^ 7 * (b7 % 256)

/-- Modelled from the spec: `fnv1_64` from `ddtrace/internal/datastreams/fnv.py`
is not under src/.  Per the spec it is a pure deterministic 64-bit hash of a
byte string ("hash64"); FNV-1 with the standard 64-bit offset basis and
prime, reduced mod 2^64 at each step. -/
def fnv1_64 (bs : List Nat) : Nat :=
  bs.foldl (fun h b => (h * 0x100000001b3 % 2 ^ 64) ^^^ (b % 256)) 0xcbf29ce484222325

/-- Modelled from the spec: `encode_var_int_64` from
`ddtrace/internal/datastreams/encoding.py` is not under src/.  Per the spec
("encode/decode of unsigned varints"), the value is emitted in 7-bit groups,
least significant first, with the continuation bit 0x80 on every byte except
the last. -/
def encode_var_int_64 (n : Nat) : List Nat :=
  if h : n < 0x80 then [n]
  else (0x80 + n % 0x80) :: encode_var_int_64 (n / 0x80)
decreasing_by
  exact Nat.div_lt_self (by omega) (by omega)

/-- Modelled from the spec: `decode_var_int_64` from
`ddtrace/internal/datastreams/encoding.py` is not under src/.  Inverse of
`encode_var_int_64`, returning the decoded value and the remaining bytes;
a truncated buffer raises `EOFError`, modelled as `Except.error`. -/
def decode_var_int_64 : List Nat → Except Unit (Nat × List Nat)
  | [] => Except.error ()
  | b :: rest =>
    if b % 256 < 0x80 then Except.ok (b % 256, rest)
    else
      match decode_var_int_64 rest with
      | Except.error e => Except.error e
      | Except.ok (v, r) => Except.ok (b % 256 - 0x80 + 0x80 * v, r)

/-- The ambient `ddtrace.config` values read by the processor: the resolved
service name and `config.env or "none"`. -/
structure Config where
  service : String
  env : String

/-- DataStreamsCtx state (processor.py lines 297-305): current hash and the
two second-resolution timestamps, plus the service/env captured from config
at construction. The back-reference to the processor is passed explicitly. -/
structure DataStreamsCtx where
  hash : Nat
  pathway_start_sec : ℚ
  current_edge_start_sec : ℚ
  service : String
  env : String
deriving DecidableEq

/-- DataStreamsCtx.__init__. -/
def DataStreamsCtx.init (cfg : Config) (hash_value : Nat)
    (pathway_start_sec current_edge_start_sec : ℚ) : DataStreamsCtx :=
  { hash := hash_value, pathway_start_sec := pathway_start_sec,
    current_edge_start_sec := current_edge_start_sec,
    service := cfg.service, env := cfg.env }

/-- DataStreamsCtx.encode (processor.py lines 307-313):
`pack("<Q", hash) + varint(int(start*1e3)) + varint(int(edge*1e3))`. The
varint input is the millisecond value as an unsigned 64-bit quantity. -/
def DataStreamsCtx.encode (ctx : DataStreamsCtx) : List Nat :=
  le8 ctx.hash ++ encode_var_int_64 (pyInt (ctx.pathway_start_sec * 1000)).toNat ++
    encode_var_int_64 (pyInt (ctx.current_edge_start_sec * 1000)).toNat

/-- DataStreamsProcessor.new_pathway (processor.py lines 281-285): hash 0 and
both timestamps set to the current time. -/
def new_pathway (cfg : Config) (now_sec : ℚ) : DataStreamsCtx :=
  DataStreamsCtx.init cfg 0 now_sec now_sec

/-- Uncaught exceptions escaping decode_pathway. -/
inductive PyErr where
  | structError
deriving DecidableEq

/-- DataStreamsProcessor.decode_pathway (processor.py lines 267-279):
`struct.unpack("<Q", data[:8])` raises `struct.error` when fewer than 8
bytes are available, and that error is NOT caught (the `except` clause names
only `EOFError`), so it escapes to the caller; with at least 8 bytes the
hash is read little-endian and the two varints are decoded, an `EOFError`
from a truncated varint section being converted into a fresh pathway. -/
def decode_pathway (cfg : Config) (now_sec : ℚ) (data : List Nat) :
    Except PyErr DataStreamsCtx :=
  match data with
  | b0 :: b1 :: b2 :: b3 :: b4 :: b5 :: b6 :: b7 :: rest =>
    let hash_value := unpackQ b0 b1 b2 b3 b4 b5 b6 b7
    (match decode_var_int_64 rest with
     | Except.error _ => Except.ok (new_pathway cfg now_sec)
     | Except.ok (pathway_start_ms, rest2) =>
       match decode_var_int_64 rest2 with
       | Except.error _ => Except.ok (new_pathway cfg now_sec)
       | Except.ok (current_edge_start_ms, _) =>
         Except.ok (DataStreamsCtx.init cfg hash_value
           ((pathway_start_ms : ℚ) / 1000) ((current_edge_start_ms : ℚ) / 1000)))
  | _ => Except.error PyErr.structError

/-- Aggregated pathway statistics (processor.py lines 50-57).  The two
DDSketches are opaque mergeable summaries; they are modelled by the multiset
of samples inserted (`add` conses), which is what the bucket-isolation and
count claims are about. -/
structure PathwayStats where
  full_pathway_latency : List ℚ
  edge_latency : List ℚ
deriving DecidableEq

def PathwayStats.empty : PathwayStats := { full_pathway_latency := [], edge_latency := [] }

/-- PathwayAggrKey: (joined edge tags, hash, parent hash). -/
abbrev PathwayAggrKey := String × Nat × Nat

structure PartitionKey where
  topic : String
  part : ℤ
deriving DecidableEq

structure ConsumerPartitionKey where
  group : String
  topic : String
  part : ℤ
deriving DecidableEq

/-- One stats bucket (processor.py lines 71-74); the three `defaultdict`s are
total functions with the default at absent keys (`PathwayStats()` resp.
`int()` = 0). -/
structure Bucket where
  pathway_stats : PathwayAggrKey → PathwayStats
  latest_produce_offsets : PartitionKey → ℤ
  latest_commit_offsets : ConsumerPartitionKey → ℤ

def Bucket.empty : Bucket :=
  { pathway_stats := fun _ => PathwayStats.empty,
    latest_produce_offsets := fun _ => 0,
    latest_commit_offsets := fun _ => 0 }

/-- The mutable state of a DataStreamsProcessor relevant to the ingestion
claims: the `_enabled` flag, the fixed `_bucket_size_ns`, and the
`_buckets` defaultdict (bucket start time ns → Bucket, default empty). -/
structure ProcState where
  enabled : Bool
  bucket_size_ns : ℤ
  buckets : ℤ → Bucket

/-- DataStreamsProcessor.__init__ state: `_enabled = True`,
`_bucket_size_ns = int(interval * 1e9)`, empty bucket map. -/
def initProcState (interval : ℚ) : ProcState :=
  { enabled := true, bucket_size_ns := pyInt (interval * 1000000000),
    buckets := fun _ => Bucket.empty }

/-- The bucket start time computed identically in on_checkpoint_creation,
track_kafka_produce and track_kafka_commit:
`now_ns - (now_ns % bucket_size_ns)` with `now_ns = int(now_sec * 1e9)`. -/
def bucketWindow (bucket_size_ns : ℤ) (now_sec : ℚ) : ℤ :=
  let now_ns := pyInt (now_sec * 1000000000)
  now_ns - now_ns % bucket_size_ns

/-- The aggregation key `(",".join(edge_tags), hash_value, parent_hash)`. -/
def aggrKey (edge_tags : List String) (hash_value parent_hash : Nat) : PathwayAggrKey :=
  (String.intercalate "," edge_tags, hash_value, parent_hash)

/-- The read-modify-write performed on the target bucket by
on_checkpoint_creation: `stats.full_pathway_latency.add(...)` and
`stats.edge_latency.add(...)` on the entry of `key`. -/
def checkpointBucketUpdate (b : Bucket) (key : PathwayAggrKey)
    (edge_latency_sec full_pathway_latency_sec : ℚ) : Bucket :=
  { b with pathway_stats := fun j =>
      if j = key then
        { full_pathway_latency := full_pathway_latency_sec :: (b.pathway_stats key).full_pathway_latency,
          edge_latency := edge_latency_sec :: (b.pathway_stats key).edge_latency }
      else b.pathway_stats j }

/-- DataStreamsProcessor.on_checkpoint_creation (processor.py lines 115-130):
no-op when disabled; otherwise insert the two latency samples into the
sketch pair of the aggregation key inside the bucket of `now`. -/
def on_checkpoint_creation (st : ProcState) (hash_value parent_hash : Nat)
    (edge_tags : List String) (now_sec edge_latency_sec full_pathway_latency_sec : ℚ) :
    ProcState :=
  if !st.enabled then st
  else
    let bucket_time_ns := bucketWindow st.bucket_size_ns now_sec
    let key := aggrKey edge_tags hash_value parent_hash
    { st with buckets := fun w =>
        if w = bucket_time_ns then
          (checkpointBucketUpdate (st.buckets bucket_time_ns) key edge_latency_sec
            full_pathway_latency_sec)
        else st.buckets w }

/-- DataStreamsProcessor.track_kafka_produce (processor.py lines 133-141):
max-merge the offset into the bucket of `now`. Note: unlike
on_checkpoint_creation, there is NO `_enabled` check in the source. -/
def track_kafka_produce (st : ProcState) (topic : String) (part offset : ℤ)
    (now_sec : ℚ) : ProcState :=
  let key : PartitionKey := { topic := topic, part := part }
  let bucket_time_ns := bucketWindow st.bucket_size_ns now_sec
  let bucket := st.buckets bucket_time_ns
  let bucket2 : Bucket :=
    { bucket with latest_produce_offsets := fun j =>
        if j = key then max offset (bucket.latest_produce_offsets key)
        else bucket.latest_produce_offsets j }
  { st with buckets := fun w => if w = bucket_time_ns then bucket2 else st.buckets w }

/-- DataStreamsProcessor.track_kafka_commit (processor.py lines 143-151):
same as track_kafka_produce for consumer offsets; also no `_enabled` check. -/
def track_kafka_commit (st : ProcState) (group topic : String) (part offset : ℤ)
    (now_sec : ℚ) : ProcState :=
  let key : ConsumerPartitionKey := { group := group, topic := topic, part := part }
  let bucket_time_ns := bucketWindow st.bucket_size_ns now_sec
  let bucket := st.buckets bucket_time_ns
  let bucket2 : Bucket :=
    { bucket with latest_commit_offsets := fun j =>
        if j = key then max offset (bucket.latest_commit_offsets key)
        else bucket.latest_commit_offsets j }
  { st with buckets := fun w => if w = bucket_time_ns then bucket2 else st.buckets w }

/-- The state effect of DataStreamsProcessor._flush_stats (processor.py lines
209-232) given the collector's HTTP response status: a 404 clears
`_enabled` permanently; any other status leaves the state unchanged (other
status codes only log). -/
def flush_stats_response (st : ProcState) (status : Nat) : ProcState :=
  if status == 404 then { st with enabled := false } else st

/-- The ingestion operations of the aggregator. -/
inductive DSOp where
  | checkpoint (hash_value parent_hash : Nat) (edge_tags : List String)
      (now_sec edge_latency_sec full_pathway_latency_sec : ℚ)
  | produce (topic : String) (part offset : ℤ) (now_sec : ℚ)
  | commit (group topic : String) (part offset : ℤ) (now_sec : ℚ)

def dsStep (st : ProcState) : DSOp → ProcState
  | DSOp.checkpoint h p tags now e f => on_checkpoint_creation st h p tags now e f
  | DSOp.produce topic part offset now => track_kafka_produce st topic part offset now
  | DSOp.commit group topic part offset now => track_kafka_commit st group topic part offset now

def dsRun (st : ProcState) (ops : List DSOp) : ProcState := ops.foldl dsStep st

/-- Python `sorted` on strings compares code points lexicographically;
`String.ltb`-based order does not reduce in the kernel, so the comparison is
spelled out over the char lists. -/
def charsLe : List Char → List Char → Bool
  | [], _ => true
  | _ :: _, [] => false
  | c :: cs, d :: ds =>
    if c.toNat < d.toNat then true
    else if d.toNat < c.toNat then false
    else charsLe cs ds

def insertSorted (x : String) : List String → List String
  | [] => [x]
  | y :: ys => if charsLe x.data y.data then x :: y :: ys else y :: insertSorted x ys

/-- Python `sorted(tags)` (insertion sort; any sort gives the same sorted
permutation, and only determinism of the result matters to the claims). -/
def pySorted (l : List String) : List String := l.foldr insertSorted []

/-- DataStreamsCtx.set_checkpoint (processor.py lines 315-331): sort the
tags, hash `service ++ env ++ concat(tags)` to the node hash, chain it with
the parent hash into the new pathway hash, compute the two latencies,
advance the context (`hash`, `current_edge_start_sec`), and report the
checkpoint to the processor.  Returns the advanced context and processor
state. -/
def set_checkpoint (st : ProcState) (ctx : DataStreamsCtx) (tags : List String)
    (now_sec : ℚ) : DataStreamsCtx × ProcState :=
  let tags2 := pySorted tags
  let b := utf8 ctx.service ++ utf8 ctx.env ++ (tags2.map utf8).flatten
  let node_hash := fnv1_64 b
  let parent_hash := ctx.hash
  let hash_value := fnv1_64 (le8 node_hash ++ le8 parent_hash)
  let edge_latency_sec := now_sec - ctx.current_edge_start_sec
  let pathway_latency_sec := now_sec - ctx.pathway_start_sec
  let ctx2 : DataStreamsCtx :=
    { ctx with hash := hash_value, current_edge_start_sec := now_sec }
  (ctx2, on_checkpoint_creation st hash_value parent_hash tags2 now_sec
    edge_latency_sec pathway_latency_sec)

/-- Concrete fixtures used by witness instantiations. -/
def demoCfg : Config := { service := "svc", env := "prod" }

def demoProcState : ProcState :=
  { enabled := true, bucket_size_ns := 1000000000, buckets := fun _ => Bucket.empty }

def demoCtx : DataStreamsCtx :=
  { hash := 7, pathway_start_sec := 1, current_edge_start_sec := 2,
    service := "svc", env := "prod" }

end DSM

namespace Core

/-- Concrete subscription log used by witness instantiations: two listeners
on the same event, the second raising, plus one on another event. -/
def demoSubs : List (String × Listener) :=
  [("evt", fun a => Except.ok (String.intercalate "." a)),
   ("evt", fun _ => Except.error "boom"),
   ("other", fun _ => Except.ok "x")]

/-- Concrete heap for C1: root, a parent holding key "k", a child of it. -/
def demoStoreP : Store :=
  run initStore [Op.newCtx "p" (some 0) [("k", "v")]]

end Core


namespace Core

theorem dictGet_dictSet_ne (d : List (String × Val)) (k1 k : String) (v : Val)
    (h : (k1 == k) = false) : dictGet (dictSet d k1 v) k = dictGet d k := by
  induction d with
  | nil => simp [dictSet, dictGet, h]
  | cons p d ih =>
    obtain ⟨k2, v2⟩ := p
    simp only [dictSet]
    by_cases h2 : (k2 == k1) = true
    · have e1 : k2 = k1 := by simpa using h2
      subst e1
      simp [dictGet, h, h2]
    · have h2f : (k2 == k1) = false := by simpa using h2
      simp [dictGet, h2f, ih]

theorem dictGet_dictUpdate_none (kw : List (String × Val)) (d : List (String × Val))
    (k : String) (h : dictGet kw k = none) :
    dictGet (dictUpdate d kw) k = dictGet d k := by
  induction kw generalizing d with
  | nil => rfl
  | cons p kw ih =>
    obtain ⟨k1, v1⟩ := p
    have h1 : (k1 == k) = false := by
      by_cases hk : (k1 == k) = true
      · simp [dictGet, hk] at h
      · simpa using hk
    have h2 : dictGet kw k = none := by
      simpa [dictGet, h1] using h
    show dictGet (dictUpdate (dictSet d k1 v1) kw) k = dictGet d k
    rw [ih (dictSet d k1 v1) h2, dictGet_dictSet_ne d k1 k v1 h1]

theorem dictSet_of_not_mem (d : List (String × Val)) (k : String) (v : Val)
    (h : k ∉ d.map Prod.fst) : dictSet d k v = d ++ [(k, v)] := by
  induction d with
  | nil => rfl
  | cons p d ih =>
    obtain ⟨k1, v1⟩ := p
    simp only [List.map_cons, List.mem_cons] at h
    push_neg at h
    have h1 : (k1 == k) = false := by
      simp only [beq_eq_false_iff_ne, ne_eq]
      exact fun e => h.1 e.symm
    simp [dictSet, h1, ih h.2]

theorem dictUpdate_of_disjoint (d : List (String × Val)) :
    ∀ acc : List (String × Val), (d.map Prod.fst).Nodup →
      (∀ x ∈ d.map Prod.fst, x ∉ acc.map Prod.fst) →
      dictUpdate acc d = acc ++ d := by
  induction d with
  | nil => simp [dictUpdate]
  | cons p d ih =>
    obtain ⟨k1, v1⟩ := p
    intro acc hnodup hdisj
    simp only [List.map_cons, List.nodup_cons] at hnodup
    have hk1 : k1 ∉ acc.map Prod.fst := hdisj k1 (by simp)
    show dictUpdate (dictSet acc k1 v1) d = acc ++ (k1, v1) :: d
    rw [dictSet_of_not_mem acc k1 v1 hk1]
    rw [ih (acc ++ [(k1, v1)]) hnodup.2]
    · simp
    · intro x hx
      simp only [List.map_append, List.mem_append, List.map_cons, List.map_nil,
        List.mem_singleton]
      push_neg
      refine ⟨fun hmem => hdisj x (by simp [hx]) hmem, ?_⟩
      intro e
      exact hnodup.1 (e ▸ hx)

theorem dictUpdate_nil (d : List (String × Val)) (h : (d.map Prod.fst).Nodup) :
    dictUpdate [] d = d := by
  simpa using dictUpdate_of_disjoint d [] h (by simp)

theorem rootNoParents_initStore : rootNoParents initStore := by
  intro i c hic _
  simp only [initStore] at hic
  by_cases hi : i = 0
  · subst hi
    simp only [if_pos rfl] at hic
    cases hic
    rfl
  · simp [hi] at hic

theorem addParent_ok (s : Store) (a b : Nat) (s2 : Store)
    (h : addParent s a b = Except.ok s2) :
    ∃ c p, s.ctxs a = some c ∧ (c.identifier == ROOT_CONTEXT_ID) = false ∧
      s.ctxs b = some p ∧
      s2 = s.setCtx a { c with parents := c.parents ++ [b],
                               data := dictUpdate c.data p.data } := by
  unfold addParent at h
  split at h
  next => cases h
  next c hc =>
    split at h
    next => cases h
    next hroot =>
      split at h
      next => cases h
      next p hp =>
        cases h
        exact ⟨c, p, hc, by simpa using hroot, hp, rfl⟩

theorem rootNoParents_setCtx_preserve (s : Store) (cid : Nat) (c0 c1 : Ctx)
    (h : rootNoParents s) (hc0 : s.ctxs cid = some c0)
    (hid : c1.identifier = c0.identifier) (hpar : c1.parents = c0.parents) :
    rootNoParents (s.setCtx cid c1) := by
  intro i c hic hroot
  simp only [Store.setCtx] at hic
  split at hic
  next hi =>
    cases hic
    rw [hpar]
    exact h cid c0 hc0 (hid ▸ hroot)
  next => exact h i c hic hroot

theorem rootNoParents_ctxUpdateData (s : Store) (cid : Nat)
    (kw : List (String × Val)) (h : rootNoParents s) :
    rootNoParents (ctxUpdateData s cid kw) := by
  unfold ctxUpdateData
  split
  next c0 hc0 => exact rootNoParents_setCtx_preserve s cid c0 _ h hc0 rfl rfl
  next => exact h

theorem rootNoParents_step (s : Store) (op : Op) (h : rootNoParents s) :
    rootNoParents (step s op) := by
  cases op with
  | setIt cid k v =>
    simp only [step, set_item]
    split
    next c0 hc0 => exact rootNoParents_setCtx_preserve s cid c0 _ h hc0 rfl rfl
    next => exact h
  | addPar a b =>
    simp only [step]
    cases hap : addParent s a b with
    | error e => exact h
    | ok s2 =>
      obtain ⟨c0, p0, hc0, hrootF, hp0, rfl⟩ := addParent_ok s a b s2 hap
      intro i c hic hroot
      simp only [Store.setCtx] at hic
      split at hic
      next hi =>
        cases hic
        exact absurd hroot (by simpa using hrootF)
      next => exact h i c hic hroot
  | newCtx identifier parent kwargs =>
    have hs1 : rootNoParents
        { size := s.size + 1,
          ctxs := fun j => if j = s.size then some (⟨identifier, [], []⟩ : Ctx) else s.ctxs j } := by
      intro i c hic hroot
      simp only [] at hic
      split at hic
      next hi =>
        cases hic
        rfl
      next => exact h i c hic hroot
    simp only [step, newContext]
    cases parent with
    | none => exact rootNoParents_ctxUpdateData _ _ _ hs1
    | some p =>
      cases hap : addParent
          { size := s.size + 1,
            ctxs := fun j => if j = s.size then some (⟨identifier, [], []⟩ : Ctx) else s.ctxs j }
          s.size p with
      | error e =>
        simp only [hap]
        exact h
      | ok s2 =>
        obtain ⟨c0, p0, hc0, hrootF, hp0, rfl⟩ := addParent_ok _ _ _ s2 hap
        simp only [hap]
        have hinner : rootNoParents
            (Store.setCtx
              ⟨s.size + 1, fun j => if j = s.size then some (⟨identifier, [], []⟩ : Ctx) else s.ctxs j⟩
              s.size
              ⟨c0.identifier, dictUpdate c0.data p0.data, c0.parents ++ [p]⟩) := by
          intro i c hic hroot
          simp only [Store.setCtx] at hic
          split at hic
          next hi =>
            cases hic
            exact absurd hroot (by simpa using hrootF)
          next => exact h i c hic hroot
        exact rootNoParents_ctxUpdateData _ s.size kwargs hinner

theorem rootNoParents_run (s : Store) (ops : List Op) (h : rootNoParents s) :
    rootNoParents (run s ops) := by
  induction ops generalizing s with
  | nil => exact h
  | cons op ops ih => exact ih (step s op) (rootNoParents_step s op h)

end Core

namespace Core

/-- C9: attaching a parent to the root context always fails: `addParent` on a
context whose identifier is the root sentinel raises ValueError synchronously
(leaving the heap unchanged, since the raise precedes any mutation), and
consequently, over every operation sequence from the initial heap, a
root-named context never acquires a parent. -/
theorem C9_root_addParent :
    (∀ (s : Store) (i p : Nat) (c : Ctx), s.ctxs i = some c →
        c.identifier = ROOT_CONTEXT_ID →
        addParent s i p = Except.error "Cannot add parent to root context")
    ∧ (∀ ops : List Op, rootNoParents (run initStore ops)) := by
  constructor
  · intro s i p c hc hid
    unfold addParent
    rw [hc]
    simp [hid]
  · intro ops
    exact rootNoParents_run initStore ops rootNoParents_initStore

/-- Witness for C9 at the initial heap: `addParent` on the root address
errors, and the root context of the empty run has no parents. -/
theorem C9_root_addParent_witness :
    addParent initStore 0 0 = Except.error "Cannot add parent to root context"
    ∧ (⟨ROOT_CONTEXT_ID, [], []⟩ : Ctx).parents = [] :=
  ⟨C9_root_addParent.1 initStore 0 0 ⟨ROOT_CONTEXT_ID, [], []⟩ rfl rfl,
   C9_root_addParent.2 [] 0 ⟨ROOT_CONTEXT_ID, [], []⟩ rfl rfl⟩

/-- C10: `get_item` on the root context itself returns the absence marker for
every key, even for a key just stored on the root via `set_item`: the walk of
get_item stops at a root-identified context before consulting its data. -/
theorem C10_root_get_item (s : Store) (cid : Nat) (c : Ctx) (k : String) (v : Val)
    (hc : s.ctxs cid = some c) (hid : c.identifier = ROOT_CONTEXT_ID) :
    get_item s cid k = none ∧ get_item (set_item s cid k v) cid k = none := by
  constructor
  · simp [get_item, getItemAux, hc, hid]
  · simp [get_item, getItemAux, set_item, Store.setCtx, hc, hid]

/-- Witness for C10 at the initial heap's root. -/
theorem C10_root_get_item_witness :
    get_item initStore 0 "k" = none ∧ get_item (set_item initStore 0 "k" "v") 0 "k" = none :=
  C10_root_get_item initStore 0 ⟨ROOT_CONTEXT_ID, [], []⟩ "k" "v" rfl rfl

end Core

namespace Core

theorem ite_idem_else (c : Prop) [Decidable c] (a b d : Option Ctx) :
    (if c then a else if c then b else d) = if c then a else d := by
  by_cases h : c <;> simp [h]

theorem newContext_some_ok (s : Store) (identifier : String) (pid : Nat)
    (kwargs : List (String × Val)) (p : Ctx)
    (hp : s.ctxs pid = some p) (hpid : pid ≠ s.size)
    (hid : (identifier == ROOT_CONTEXT_ID) = false) :
    newContext s identifier (some pid) kwargs =
      Except.ok
        (⟨s.size + 1,
          fun j => if j = s.size
            then some ⟨identifier, dictUpdate (dictUpdate [] p.data) kwargs, [] ++ [pid]⟩
            else s.ctxs j⟩, s.size) := by
  simp only [newContext, addParent, ctxUpdateData, Store.setCtx]
  simp [hid, hp, hpid, ite_idem_else]

end Core

namespace Core

/-- C1 counterexample: the claim "a value set on a parent context after a
child context was created is not visible to the child" is false.  Build
root -> "p" -> "c" with no data anywhere; then set key "k" on "p" AFTER "c"
exists.  Before the mutation the child lookup misses; after it, the child
lookup returns the new value, because get_item walks the live parent chain
for keys absent from the child's own (snapshot) data map. -/
theorem C1_counterexample :
    get_item (run initStore [Op.newCtx "p" (some 0) [], Op.newCtx "c" (some 1) []]) 2 "k"
      = none
    ∧ get_item (run initStore [Op.newCtx "p" (some 0) [], Op.newCtx "c" (some 1) [],
        Op.setIt 1 "k" "v"]) 2 "k" = some "v" := by
  constructor
  · rfl
  · rfl

/-- C1 (amended): snapshot-at-creation holds per key for keys the parent
already had at attach time.  If the parent's data contains `k ↦ v` when the
child is created (and the creation kwargs do not shadow `k`), then after
overwriting `k` on the parent the child still reads the attach-time value
`v` from its own copied data map; keys the parent acquires only after the
attach are instead found through the live parent-chain walk (see the
counterexample). -/
theorem C1_snapshot_amended (s : Store) (pid : Nat) (identifier k : String)
    (kwargs : List (String × Val)) (p : Ctx) (v v2 : Val)
    (hp : s.ctxs pid = some p)
    (hfresh : s.ctxs s.size = none)
    (hid : (identifier == ROOT_CONTEXT_ID) = false)
    (hnodup : (p.data.map Prod.fst).Nodup)
    (hk : dictGet p.data k = some v)
    (hkw : dictGet kwargs k = none) :
    get_item (set_item (step s (Op.newCtx identifier (some pid) kwargs)) pid k v2) s.size k
      = some v := by
  have hpid : pid ≠ s.size := by
    intro e
    rw [e, hfresh] at hp
    cases hp
  have hchild : dictGet (dictUpdate (dictUpdate [] p.data) kwargs) k = some v := by
    rw [dictUpdate_nil p.data hnodup, dictGet_dictUpdate_none kwargs p.data k hkw, hk]
  have hnc := newContext_some_ok s identifier pid kwargs p hp hpid hid
  have hpid2 : s.size ≠ pid := Ne.symm hpid
  simp only [step, hnc]
  simp [set_item, Store.setCtx, get_item, getItemAux, hpid, hpid2, hp, hid, hchild]

/-- Witness for C1 (amended): in a heap where context 1 ("p", child of root)
holds "k" ↦ "v", creating child "c" and then overwriting "k" on "p" leaves
the child reading "v". -/
theorem C1_snapshot_amended_witness :
    get_item (set_item (step demoStoreP (Op.newCtx "c" (some 1) [])) 1 "k" "w") 2 "k"
      = some "v" :=
  C1_snapshot_amended demoStoreP 1 "c" "k" [] ⟨"p", [("k", "v")], [0]⟩ "v" "w"
    (by rfl) (by rfl) (by rfl) (by decide) (by rfl) (by rfl)

end Core

namespace Core

theorem getElem?_append_middle_ne {α : Type} (xs ys : List α) (a b : α) (j : Nat)
    (h : j ≠ xs.length) : (xs ++ a :: ys)[j]? = (xs ++ b :: ys)[j]? := by
  induction xs generalizing j with
  | nil =>
    cases j with
    | zero => exact absurd rfl h
    | succ j => simp
  | cons x xs ih =>
    cases j with
    | zero => simp
    | succ j =>
      simp only [List.cons_append, List.getElem?_cons_succ]
      exact ih j (by simpa using h)

theorem listenersFor_append (subs1 subs2 : List (String × Listener)) (e : String) :
    listenersFor (subs1 ++ subs2) e = listenersFor subs1 e ++ listenersFor subs2 e := by
  simp [listenersFor, List.filter_append]

/-- C6: for every subscription log and dispatched event, dispatch produces
one result slot and one exception slot per registered listener, positionally
in subscription order; position `i` carries exactly the outcome of running
the `i`-th listener (its value and no exception if it returns, no value and
its exception if it raises); and replacing the listener at one subscription
position (e.g. by one that raises) leaves the outcome at every other
position unchanged, so one listener's error never suppresses another
listener's result and dispatch itself never propagates a listener error. -/
theorem C6_dispatch_order (subs : List (String × Listener)) (event_id : String)
    (args : List Val) :
    ((dispatch subs event_id args).1.length = (listenersFor subs event_id).length
      ∧ (dispatch subs event_id args).2.length = (listenersFor subs event_id).length)
    ∧ (∀ i (h : i < (listenersFor subs event_id).length),
        (dispatch subs event_id args).1[i]? =
          some (listenerOutcome args ((listenersFor subs event_id)[i])).1
        ∧ (dispatch subs event_id args).2[i]? =
          some (listenerOutcome args ((listenersFor subs event_id)[i])).2)
    ∧ (∀ (pre post : List (String × Listener)) (l1 l2 : Listener) (j : Nat),
        j ≠ (listenersFor pre event_id).length →
        (dispatch (pre ++ (event_id, l1) :: post) event_id args).1[j]? =
          (dispatch (pre ++ (event_id, l2) :: post) event_id args).1[j]?
        ∧ (dispatch (pre ++ (event_id, l1) :: post) event_id args).2[j]? =
          (dispatch (pre ++ (event_id, l2) :: post) event_id args).2[j]?) := by
  refine ⟨⟨by simp [dispatch], by simp [dispatch]⟩, ?_, ?_⟩
  · intro i h
    constructor
    · simp [dispatch, List.getElem?_map, List.getElem?_eq_getElem h]
    · simp [dispatch, List.getElem?_map, List.getElem?_eq_getElem h]
  · intro pre post l1 l2 j hj
    have hmid : ∀ l : Listener,
        listenersFor (pre ++ (event_id, l) :: post) event_id =
          listenersFor pre event_id ++ l :: listenersFor post event_id := by
      intro l
      rw [show (event_id, l) :: post = [(event_id, l)] ++ post from rfl,
        listenersFor_append, listenersFor_append]
      simp [listenersFor]
    have key : ∀ (f : Listener → Option Val × Option Exn)
        (g : Option Val × Option Exn → Option Val),
        (((listenersFor (pre ++ (event_id, l1) :: post) event_id).map f).map g)[j]? =
        (((listenersFor (pre ++ (event_id, l2) :: post) event_id).map f).map g)[j]? := by
      intro f g
      rw [hmid l1, hmid l2]
      simp only [List.map_append, List.map_cons]
      apply getElem?_append_middle_ne
      simpa using hj
    exact ⟨key (listenerOutcome args) (fun o => o.1), key (listenerOutcome args) (fun o => o.2)⟩

/-- Witness for C6 on a concrete log: the raising second listener's slot
carries its exception and no result, while the first listener's slot is
unaffected. -/
theorem C6_dispatch_order_witness :
    (dispatch demoSubs "evt" ["x"]).1[1]? = some none
    ∧ (dispatch demoSubs "evt" ["x"]).2[1]? = some (some "boom")
    ∧ (dispatch demoSubs "evt" ["x"]).1[0]? = some (some "x") := by
  have h1 := (C6_dispatch_order demoSubs "evt" ["x"]).2.1 1 (by decide)
  have h0 := (C6_dispatch_order demoSubs "evt" ["x"]).2.1 0 (by decide)
  exact ⟨h1.1.trans rfl, h1.2.trans rfl, h0.1.trans rfl⟩

end Core

namespace DSM

/-- C2 (code-bug evidence): on an input shorter than 8 bytes,
`decode_pathway` raises `struct.error` to the caller (the `except EOFError`
clause does not catch it) instead of returning a fresh pathway; the intended
fallback does fire for the other truncation mode (8 hash bytes present but
the varint section truncated). -/
theorem C2_decode_short_raises :
    decode_pathway demoCfg 5 [] = Except.error PyErr.structError
    ∧ decode_pathway demoCfg 5 [1, 2, 3] = Except.error PyErr.structError
    ∧ decode_pathway demoCfg 5 (le8 7) = Except.ok (new_pathway demoCfg 5) :=
  ⟨rfl, rfl, rfl⟩

theorem dsStep_enabled (st : ProcState) (op : DSOp) : (dsStep st op).enabled = st.enabled := by
  cases op with
  | checkpoint h p tags now e f =>
    simp only [dsStep, on_checkpoint_creation]
    split
    · rfl
    · rfl
  | produce t p o n => rfl
  | commit g t p o n => rfl

/-- C3 (amended): a 404 response from the collector clears `_enabled`; the
flag is never reset by any later ingestion operation, and while it is
cleared `on_checkpoint_creation` is a strict no-op.  (The claim's further
assertion that `track_kafka_produce` and `track_kafka_commit` also become
no-ops is refuted by the counterexample: those two methods do not consult
`_enabled`.) -/
theorem C3_disable_amended :
    (∀ st : ProcState, (flush_stats_response st 404).enabled = false)
    ∧ (∀ (st : ProcState) (ops : List DSOp), st.enabled = false →
        (dsRun st ops).enabled = false)
    ∧ (∀ (st : ProcState) (hv ph : Nat) (tags : List String) (now e f : ℚ),
        st.enabled = false →
        on_checkpoint_creation st hv ph tags now e f = st) := by
  refine ⟨fun st => rfl, ?_, ?_⟩
  · intro st ops h
    induction ops generalizing st with
    | nil => exact h
    | cons op ops ih => exact ih (dsStep st op) ((dsStep_enabled st op).trans h)
  · intro st hv ph tags now e f h
    simp [on_checkpoint_creation, h]

/-- Witness for C3 (amended) at a concrete disabled state. -/
theorem C3_disable_amended_witness :
    (flush_stats_response demoProcState 404).enabled = false
    ∧ (dsRun { demoProcState with enabled := false } [DSOp.produce "t" 0 5 0]).enabled = false
    ∧ on_checkpoint_creation { demoProcState with enabled := false } 1 2 ["a"] 0 0 0
        = { demoProcState with enabled := false } :=
  ⟨C3_disable_amended.1 demoProcState,
   C3_disable_amended.2.1 { demoProcState with enabled := false } [DSOp.produce "t" 0 5 0] rfl,
   C3_disable_amended.2.2 { demoProcState with enabled := false } 1 2 ["a"] 0 0 0 rfl⟩

/-- C3 counterexample: after the 404 has disabled the aggregator,
`track_kafka_produce` still mutates the bucket map (it records offset 5
where the disabled aggregator previously stored the default 0), refuting
"every subsequent call to each of the three operations is a no-op". -/
theorem C3_counterexample :
    ((track_kafka_produce (flush_stats_response demoProcState 404) "t" 0 5 0).buckets 0).latest_produce_offsets
        ⟨"t", 0⟩ = 5
    ∧ ((flush_stats_response demoProcState 404).buckets 0).latest_produce_offsets ⟨"t", 0⟩ = 0
    ∧ (flush_stats_response demoProcState 404).enabled = false := by
  have hwin : bucketWindow (1000000000 : ℤ) (0 : ℚ) = 0 := by
    simp [bucketWindow, pyInt]
  refine ⟨?_, rfl, rfl⟩
  have hflush : flush_stats_response demoProcState 404 = { demoProcState with enabled := false } := rfl
  rw [hflush]
  show ((track_kafka_produce { demoProcState with enabled := false } "t" 0 5 0).buckets 0).latest_produce_offsets
      ⟨"t", 0⟩ = 5
  simp [track_kafka_produce, demoProcState, hwin, Bucket.empty]

theorem dsStep_offsets_mono (st : ProcState) (op : DSOp) (w : ℤ) :
    (∀ k, (st.buckets w).latest_produce_offsets k ≤ ((dsStep st op).buckets w).latest_produce_offsets k)
    ∧ (∀ k2, (st.buckets w).latest_commit_offsets k2 ≤ ((dsStep st op).buckets w).latest_commit_offsets k2) := by
  cases op with
  | checkpoint h p tags now e f =>
    constructor <;> intro k <;> simp only [dsStep, on_checkpoint_creation] <;> split
    · exact le_refl _
    · simp only []
      split
      next hw => subst hw; exact le_refl _
      next => exact le_refl _
    · exact le_refl _
    · simp only []
      split
      next hw => subst hw; exact le_refl _
      next => exact le_refl _
  | produce t p o n =>
    constructor <;> intro k <;> simp only [dsStep, track_kafka_produce]
    · split
      next hw =>
        subst hw
        simp only []
        split
        next hk => subst hk; exact le_max_right _ _
        next => exact le_refl _
      next => exact le_refl _
    · split
      next hw => subst hw; exact le_refl _
      next => exact le_refl _
  | commit g t p o n =>
    constructor <;> intro k <;> simp only [dsStep, track_kafka_commit]
    · split
      next hw => subst hw; exact le_refl _
      next => exact le_refl _
    · split
      next hw =>
        subst hw
        simp only []
        split
        next hk => subst hk; exact le_max_right _ _
        next => exact le_refl _
      next => exact le_refl _

/-- C8: every write max-merges, so for every bucket window and key the
recorded produce and commit offsets are monotonically non-decreasing along
any sequence of ingestion operations; and concretely, producing offsets
5, 3, 9 for one key at one time (hence within one bucket) leaves a recorded
high-water-mark of 9. -/
theorem C8_offsets_monotone :
    (∀ (st : ProcState) (ops : List DSOp) (w : ℤ) (k : PartitionKey),
        (st.buckets w).latest_produce_offsets k ≤ ((dsRun st ops).buckets w).latest_produce_offsets k)
    ∧ (∀ (st : ProcState) (ops : List DSOp) (w : ℤ) (k2 : ConsumerPartitionKey),
        (st.buckets w).latest_commit_offsets k2 ≤ ((dsRun st ops).buckets w).latest_commit_offsets k2)
    ∧ ((dsRun demoProcState
          [DSOp.produce "t" 0 5 0, DSOp.produce "t" 0 3 0, DSOp.produce "t" 0 9 0]).buckets
        (bucketWindow demoProcState.bucket_size_ns 0)).latest_produce_offsets ⟨"t", 0⟩ = 9 := by
  refine ⟨?_, ?_, ?_⟩
  · intro st ops w k
    induction ops generalizing st with
    | nil => exact le_refl _
    | cons op ops ih =>
      exact le_trans ((dsStep_offsets_mono st op w).1 k) (ih (dsStep st op))
  · intro st ops w k2
    induction ops generalizing st with
    | nil => exact le_refl _
    | cons op ops ih =>
      exact le_trans ((dsStep_offsets_mono st op w).2 k2) (ih (dsStep st op))
  · simp [dsRun, dsStep, track_kafka_produce, Bucket.empty, demoProcState]

/-- C4: set_checkpoint computes the node hash over
`serviceUTF8 ++ envUTF8 ++ concat(sortedTags)`, chains it with the parent
hash through the little-endian 8-byte encodings, reports exactly the two
latencies `now - currentEdgeStartTime` and `now - pathwayStartTime` to the
aggregator (together with the new and parent hash and the sorted tags),
advances the context state to the new hash and edge start time (keeping the
pathway start), and is deterministic in (service, env, sorted tags, parent
hash). -/
theorem C4_set_checkpoint (st : ProcState) (ctx : DataStreamsCtx) (tags : List String)
    (now : ℚ) :
    ((set_checkpoint st ctx tags now).1.hash =
        fnv1_64 (le8 (fnv1_64 (utf8 ctx.service ++ utf8 ctx.env ++
          ((pySorted tags).map utf8).flatten)) ++ le8 ctx.hash))
    ∧ (set_checkpoint st ctx tags now).1.current_edge_start_sec = now
    ∧ (set_checkpoint st ctx tags now).1.pathway_start_sec = ctx.pathway_start_sec
    ∧ (set_checkpoint st ctx tags now).2 =
        on_checkpoint_creation st
          (fnv1_64 (le8 (fnv1_64 (utf8 ctx.service ++ utf8 ctx.env ++
            ((pySorted tags).map utf8).flatten)) ++ le8 ctx.hash))
          ctx.hash (pySorted tags) now (now - ctx.current_edge_start_sec)
          (now - ctx.pathway_start_sec)
    ∧ (∀ (st2 : ProcState) (ctx2 : DataStreamsCtx) (tags2 : List String) (now2 : ℚ),
        ctx2.service = ctx.service → ctx2.env = ctx.env → ctx2.hash = ctx.hash →
        pySorted tags2 = pySorted tags →
        (set_checkpoint st2 ctx2 tags2 now2).1.hash = (set_checkpoint st ctx tags now).1.hash) := by
  refine ⟨rfl, rfl, rfl, rfl, ?_⟩
  intro st2 ctx2 tags2 now2 hs he hh ht
  simp [set_checkpoint, hs, he, hh, ht]

/-- Witness for C4 determinism: two checkpoints from contexts agreeing on
(service, env, parent hash) and on the tag multiset, at different times and
against different processor states, produce the same new hash. -/
theorem C4_set_checkpoint_witness :
    (set_checkpoint { demoProcState with enabled := false } demoCtx ["b", "a"] 9).1.hash =
      (set_checkpoint demoProcState demoCtx ["b", "a"] 5).1.hash :=
  (C4_set_checkpoint demoProcState demoCtx ["b", "a"] 5).2.2.2.2
    { demoProcState with enabled := false } demoCtx ["b", "a"] 9 rfl rfl rfl rfl

end DSM

namespace DSM

theorem pyInt_natCast (n : Nat) : pyInt (n : ℚ) = n := by
  simp [pyInt, Int.floor_natCast]

theorem decode_encode_var (n : Nat) (rest : List Nat) :
    decode_var_int_64 (encode_var_int_64 n ++ rest) = Except.ok (n, rest) := by
  induction n using Nat.strong_induction_on generalizing rest with
  | _ n ih =>
    by_cases h : n < 0x80
    · rw [encode_var_int_64, dif_pos h]
      have hm : n % 256 = n := Nat.mod_eq_of_lt (by omega)
      simp [decode_var_int_64, hm, h]
    · rw [encode_var_int_64, dif_neg h]
      have hb : (0x80 + n % 0x80) % 256 = 0x80 + n % 0x80 := by
        have := Nat.mod_lt n (show 0 < 0x80 by omega)
        omega
      have hlt : ¬(0x80 + n % 0x80) % 256 < 0x80 := by omega
      have hdec := ih (n / 0x80) (Nat.div_lt_self (by omega) (by omega)) rest
      have hval : (0x80 + n % 0x80) % 256 - 0x80 + 0x80 * (n / 0x80) = n := by omega
      simp only [List.cons_append, decode_var_int_64, List.append_eq, hlt, if_false, hdec,
        hval]

theorem unpackQ_le8 (n : Nat) (h : n < 2 ^ 64) :
    unpackQ (n % 256) (n / 256 % 256) (n / 256 ^ 2 % 256) (n / 256 ^ 3 % 256)
      (n / 256 ^ 4 % 256) (n / 256 ^ 5 % 256) (n / 256 ^ 6 % 256) (n / 256 ^ 7 % 256) = n := by
  unfold unpackQ
  norm_num
  omega

/-- C5: the wire layout is the 8 little-endian hash bytes followed by the two
millisecond varints, and decoding the encoding of a context carrying a valid
triple (hash below 2^64, millisecond timestamps representable as 64-bit
varints) returns exactly that context. -/
theorem C5_roundtrip (cfg : Config) (hashv startMs edgeMs : Nat) (now : ℚ)
    (h1 : hashv < 2 ^ 64) (h2 : startMs < 2 ^ 64) (h3 : edgeMs < 2 ^ 64) :
    (DataStreamsCtx.init cfg hashv ((startMs : ℚ) / 1000) ((edgeMs : ℚ) / 1000)).encode
        = le8 hashv ++ encode_var_int_64 startMs ++ encode_var_int_64 edgeMs
    ∧ decode_pathway cfg now
        (DataStreamsCtx.init cfg hashv ((startMs : ℚ) / 1000) ((edgeMs : ℚ) / 1000)).encode
      = Except.ok (DataStreamsCtx.init cfg hashv ((startMs : ℚ) / 1000) ((edgeMs : ℚ) / 1000)) := by
  have hms : ∀ m : Nat, (pyInt ((m : ℚ) / 1000 * 1000)).toNat = m := by
    intro m
    rw [div_mul_cancel₀ _ (by norm_num : (1000 : ℚ) ≠ 0), pyInt_natCast]
    exact Int.toNat_natCast m
  have henc : (DataStreamsCtx.init cfg hashv ((startMs : ℚ) / 1000) ((edgeMs : ℚ) / 1000)).encode
      = le8 hashv ++ encode_var_int_64 startMs ++ encode_var_int_64 edgeMs := by
    simp only [DataStreamsCtx.encode, DataStreamsCtx.init, hms]
  refine ⟨henc, ?_⟩
  rw [henc]
  simp only [le8, List.cons_append, List.nil_append, List.append_assoc]
  simp only [decode_pathway, decode_encode_var startMs (encode_var_int_64 edgeMs)]
  rw [show encode_var_int_64 edgeMs = encode_var_int_64 edgeMs ++ [] from (List.append_nil _).symm,
    decode_encode_var edgeMs []]
  simp only [unpackQ_le8 hashv h1]

/-- Witness for C5 at hash 7, start 2000 ms, edge 3000 ms. -/
theorem C5_roundtrip_witness :
    decode_pathway demoCfg 5
        (DataStreamsCtx.init demoCfg 7 (((2000 : Nat) : ℚ) / 1000) (((3000 : Nat) : ℚ) / 1000)).encode
      = Except.ok (DataStreamsCtx.init demoCfg 7 (((2000 : Nat) : ℚ) / 1000) (((3000 : Nat) : ℚ) / 1000)) :=
  (C5_roundtrip demoCfg 7 2000 3000 5 (by norm_num) (by norm_num) (by norm_num)).2

end DSM

namespace DSM

theorem onchk_buckets (st : ProcState) (hEn : st.enabled = true)
    (hv ph : Nat) (tags : List String) (now e f : ℚ) (w : ℤ) :
    (on_checkpoint_creation st hv ph tags now e f).buckets w =
      if w = bucketWindow st.bucket_size_ns now then
        (checkpointBucketUpdate (st.buckets (bucketWindow st.bucket_size_ns now))
          (aggrKey tags hv ph) e f)
      else st.buckets w := by
  simp [on_checkpoint_creation, hEn]

theorem onchk_bucket_size (st : ProcState) (hv ph : Nat) (tags : List String)
    (now e f : ℚ) :
    (on_checkpoint_creation st hv ph tags now e f).bucket_size_ns = st.bucket_size_ns := by
  simp only [on_checkpoint_creation]
  split
  · rfl
  · rfl

theorem onchk_enabled (st : ProcState) (hv ph : Nat) (tags : List String)
    (now e f : ℚ) :
    (on_checkpoint_creation st hv ph tags now e f).enabled = st.enabled := by
  simp only [on_checkpoint_creation]
  split
  · rfl
  · rfl

theorem cbu_stats_self (b : Bucket) (key : PathwayAggrKey) (e f : ℚ) :
    (checkpointBucketUpdate b key e f).pathway_stats key =
      { full_pathway_latency := f :: (b.pathway_stats key).full_pathway_latency,
        edge_latency := e :: (b.pathway_stats key).edge_latency } := by
  simp [checkpointBucketUpdate]

/-- C7: a checkpoint is routed to exactly the bucket whose start is
`floor(now_ns / bucketSizeNs) * bucketSizeNs` (the source's
`now_ns - now_ns % bucket_size_ns` equals that floor expression), leaving
every other bucket untouched; two checkpoints with the same aggregation key
land in one sketch entry holding both samples (count 2) when their windows
coincide, and in two separate single-sample entries when their windows
differ. -/
theorem C7_bucket_routing (st : ProcState) (hv ph : Nat) (tags : List String)
    (now1 now2 e1 f1 e2 f2 : ℚ)
    (hEn : st.enabled = true) (hSz : 0 < st.bucket_size_ns)
    (hempty1 : (st.buckets (bucketWindow st.bucket_size_ns now1)).pathway_stats
        (aggrKey tags hv ph) = PathwayStats.empty)
    (hempty2 : (st.buckets (bucketWindow st.bucket_size_ns now2)).pathway_stats
        (aggrKey tags hv ph) = PathwayStats.empty) :
    (bucketWindow st.bucket_size_ns now1 =
        st.bucket_size_ns * (pyInt (now1 * 1000000000) / st.bucket_size_ns))
    ∧ (∀ w, w ≠ bucketWindow st.bucket_size_ns now1 →
        (on_checkpoint_creation st hv ph tags now1 e1 f1).buckets w = st.buckets w)
    ∧ (bucketWindow st.bucket_size_ns now1 = bucketWindow st.bucket_size_ns now2 →
        ((on_checkpoint_creation (on_checkpoint_creation st hv ph tags now1 e1 f1)
            hv ph tags now2 e2 f2).buckets
          (bucketWindow st.bucket_size_ns now1)).pathway_stats (aggrKey tags hv ph)
          = { full_pathway_latency := [f2, f1], edge_latency := [e2, e1] })
    ∧ (bucketWindow st.bucket_size_ns now1 ≠ bucketWindow st.bucket_size_ns now2 →
        ((on_checkpoint_creation (on_checkpoint_creation st hv ph tags now1 e1 f1)
            hv ph tags now2 e2 f2).buckets
          (bucketWindow st.bucket_size_ns now1)).pathway_stats (aggrKey tags hv ph)
          = { full_pathway_latency := [f1], edge_latency := [e1] }
        ∧ ((on_checkpoint_creation (on_checkpoint_creation st hv ph tags now1 e1 f1)
            hv ph tags now2 e2 f2).buckets
          (bucketWindow st.bucket_size_ns now2)).pathway_stats (aggrKey tags hv ph)
          = { full_pathway_latency := [f2], edge_latency := [e2] }) := by
  have hst2en : (on_checkpoint_creation st hv ph tags now1 e1 f1).enabled = true :=
    (onchk_enabled st hv ph tags now1 e1 f1).trans hEn
  have hst2sz : (on_checkpoint_creation st hv ph tags now1 e1 f1).bucket_size_ns
      = st.bucket_size_ns := onchk_bucket_size st hv ph tags now1 e1 f1
  have hb2 : ∀ w : ℤ,
      (on_checkpoint_creation (on_checkpoint_creation st hv ph tags now1 e1 f1)
          hv ph tags now2 e2 f2).buckets w =
        if w = bucketWindow st.bucket_size_ns now2 then
          (checkpointBucketUpdate
            ((on_checkpoint_creation st hv ph tags now1 e1 f1).buckets
              (bucketWindow st.bucket_size_ns now2))
            (aggrKey tags hv ph) e2 f2)
        else (on_checkpoint_creation st hv ph tags now1 e1 f1).buckets w := by
    intro w
    rw [onchk_buckets _ hst2en hv ph tags now2 e2 f2 w, hst2sz]
  refine ⟨?_, ?_, ?_, ?_⟩
  · show pyInt (now1 * 1000000000) - pyInt (now1 * 1000000000) % st.bucket_size_ns =
      st.bucket_size_ns * (pyInt (now1 * 1000000000) / st.bucket_size_ns)
    have hdm := Int.ediv_add_emod (pyInt (now1 * 1000000000)) st.bucket_size_ns
    omega
  · intro w hw
    rw [onchk_buckets st hEn hv ph tags now1 e1 f1 w, if_neg hw]
  · intro heq
    rw [hb2, if_pos heq, ← heq,
      onchk_buckets st hEn hv ph tags now1 e1 f1, if_pos rfl,
      cbu_stats_self, cbu_stats_self, hempty1]
    rfl
  · intro hne
    constructor
    · rw [hb2, if_neg hne,
        onchk_buckets st hEn hv ph tags now1 e1 f1, if_pos rfl, cbu_stats_self, hempty1]
      rfl
    · rw [hb2, if_pos rfl,
        onchk_buckets st hEn hv ph tags now1 e1 f1, if_neg (fun e => hne e.symm),
        cbu_stats_self, hempty2]
      rfl

/-- Witness for C7: two checkpoints with the same key at the same time fall
in the same window and their sketch entry holds both samples. -/
theorem C7_bucket_routing_witness :
    ((on_checkpoint_creation (on_checkpoint_creation demoProcState 1 2 ["a"] 0 10 20)
        1 2 ["a"] 0 30 40).buckets
      (bucketWindow demoProcState.bucket_size_ns 0)).pathway_stats (aggrKey ["a"] 1 2)
      = { full_pathway_latency := [40, 20], edge_latency := [30, 10] } :=
  (C7_bucket_routing demoProcState 1 2 ["a"] 0 0 10 20 30 40 rfl (by decide) rfl rfl).2.2.1 rfl

end DSM
